import Mathlib

/-!
Verification of the finance-tracking core (category/transaction services and
MySQL repositories) against its specification.

The Go source is embedded shallowly:

* the relational store (tables `categories` and `transactions`) becomes a
  `Store` record of lists plus auto-increment counters;
* GORM/SQL queries become pure list operations that mirror the exact
  predicates of the issued statements;
* Go's `time.Parse("2006-01-02", s)` becomes `parseDate`, and
  `Format("2006-01-02")` becomes `formatDate`;
* `sql.NullInt64` / `sql.NullString` become `Option Int` / `Option String`
  (the services only ever build the fully-null or fully-valid values);
* fallible operations return `GoResult`, whose `panicked` constructor models
  a Go runtime panic (nil-pointer dereference) as opposed to a returned error;
* `float64` amounts (`decimal(15,2)` in the schema) are modelled as `Int`:
  no claim depends on fractional or floating-point behaviour;
* timestamps are opaque `Nat` clock values threaded in as a `now` parameter
  (`helper.DatetimeNowJakarta()`), with `0` playing the role of Go's zero
  `time.Time`; context deadlines (`helper.CheckDeadline`) are outside the
  pure model and omitted.
-/

/-- Calendar date as produced by Go `time.Parse("2006-01-02", s)`. -/
structure GoDate where
  year : Nat
  month : Nat
  day : Nat
deriving DecidableEq, Repr

/-- Gregorian leap-year rule used by Go's `time` package. -/
def isLeapYear (y : Nat) : Bool :=
  (y % 4 == 0 && y % 100 != 0) || y % 400 == 0

/-- Number of days in a month (Go `time.daysIn`). -/
def daysInMonth (y m : Nat) : Nat :=
  if m == 2 then (if isLeapYear y then 29 else 28)
  else if m == 4 || m == 6 || m == 9 || m == 11 then 30
  else 31

/-- Linear key for comparing calendar dates (matches SQL `DATE` ordering). -/
def dateKey (d : GoDate) : Nat :=
  d.year * 10000 + d.month * 100 + d.day

/-- Go's zero `time.Time` renders as January 1 of year 1; GORM treats it as a
zero (unset) struct field. -/
def isZeroDate (d : GoDate) : Bool :=
  d.year == 1 && d.month == 1 && d.day == 1

/-- ASCII digit test (Go's date parser only accepts bytes `0x30`-`0x39`). -/
def isDigitChar (c : Char) : Bool :=
  48 ≤ c.toNat && c.toNat ≤ 57

/-- Numeric value of an ASCII digit. -/
def digitToNat (c : Char) : Nat := c.toNat - 48

/-- ASCII digit character for a value below ten. -/
def natDigitChar (n : Nat) : Char := Char.ofNat (48 + n)

/-- Go `time.Parse("2006-01-02", s)`: exactly four digits, a dash, two digits,
a dash, two digits; the month must be 1..12 and the day must exist in that
month of that year. Any other string is a parse error (`none`). -/
def parseDate (s : String) : Option GoDate :=
  match s.data with
  | [y1, y2, y3, y4, s1, m1, m2, s2, d1, d2] =>
    if isDigitChar y1 && isDigitChar y2 && isDigitChar y3 && isDigitChar y4 &&
       s1 == '-' && isDigitChar m1 && isDigitChar m2 && s2 == '-' &&
       isDigitChar d1 && isDigitChar d2 then
      let y := ((digitToNat y1 * 10 + digitToNat y2) * 10 + digitToNat y3) * 10 + digitToNat y4
      let m := digitToNat m1 * 10 + digitToNat m2
      let d := digitToNat d1 * 10 + digitToNat d2
      if 1 ≤ m && m ≤ 12 && 1 ≤ d && d ≤ daysInMonth y m then
        some ⟨y, m, d⟩
      else none
    else none
  | _ => none

/-- Go `t.Format("2006-01-02")` for the four-digit-year dates the service
stores (every stored date comes from `parseDate`). -/
def formatDate (d : GoDate) : String :=
  ⟨[natDigitChar (d.year / 1000 % 10), natDigitChar (d.year / 100 % 10),
    natDigitChar (d.year / 10 % 10), natDigitChar (d.year % 10), '-',
    natDigitChar (d.month / 10 % 10), natDigitChar (d.month % 10), '-',
    natDigitChar (d.day / 10 % 10), natDigitChar (d.day % 10)]⟩

/-- Error kinds of `error/error.go`: `ErrInvalidRequest` (HTTP 422),
`ErrUnauthorized` (401), `ErrRecordNotFound` (404), `ErrConflict` (409).
Detail strings are dropped; no claim distinguishes two errors of one kind. -/
inductive AppErr where
  | invalidRequest
  | unauthorized
  | recordNotFound
  | conflict
deriving DecidableEq, Repr

/-- Outcome of a Go call: a value, a returned typed error, or a runtime panic
(the services can hit a nil-pointer dereference, which is not a returned
error). An `err` or `panicked` outcome of a mutating operation leaves the
store untouched: only `ok` carries a successor store. -/
inductive GoResult (α : Type) where
  | ok : α → GoResult α
  | err : AppErr → GoResult α
  | panicked : GoResult α
deriving DecidableEq, Repr

/-- Row of the `categories` table (`entity.Category`). -/
structure Category where
  ID : Int
  CreatedBy : Int
  Name : String
  CreatedAt : Nat
  UpdatedAt : Nat
deriving DecidableEq, Repr

/-- Row of the `transactions` table (`entity.Transaction`). The field `Type`
of the source is rendered `Type_` (`Type` is reserved in Lean). -/
structure Transaction where
  ID : Int
  UserID : Int
  CategoryID : Option Int
  Amount : Int
  Type_ : String
  Description : Option String
  TransactionDate : GoDate
  CreatedAt : Nat
  UpdatedAt : Nat
deriving DecidableEq, Repr

/-- The relational database: both tables plus their auto-increment counters. -/
structure Store where
  categories : List Category
  transactions : List Transaction
  nextCategoryID : Int
  nextTransactionID : Int
deriving DecidableEq, Repr

/-- Category request DTO (`entity.CategoryReq`); the unexported `userID`
field is never read by the use case (it uses the handler's parameter) and is
omitted. -/
structure CategoryReq where
  Name : String
deriving DecidableEq, Repr

/-- Transaction request DTO (`usecaseEntity.TransactionReq`); `CategoryID`
and `Description` are pointers in Go (`none` = nil). The `UserID` field is
never read by the use case (it uses the handler's parameter) and is omitted. -/
structure TransactionReq where
  CategoryID : Option Int
  Amount : Int
  Type_ : String
  Description : Option String
  TransactionDate : String
deriving DecidableEq, Repr

/-- Transaction response DTO (`usecaseEntity.TransactionResponse`). -/
structure TransactionResponse where
  ID : Int
  UserID : Int
  CategoryID : Option Int
  CategoryName : Option String
  Amount : Int
  Type_ : String
  Description : Option String
  TransactionDate : String
  CreatedAt : String
  UpdatedAt : String
deriving DecidableEq, Repr

/-- Join row of `TransactionRepository.GetAllByUserID` (entity plus the
left-joined `c.name as category_name`, null when no category matches). -/
structure TransactionWithCategory where
  txn : Transaction
  CategoryName : Option String
deriving DecidableEq, Repr

/-- Grouped row of the daily-summary query (`transaction_day`, `type`,
`total_amount`); in Go it is a `map[string]interface{}`. -/
structure DailySummaryRow where
  transactionDay : GoDate
  Type_ : String
  totalAmount : Int
deriving DecidableEq, Repr

/-- Grouped row of the category-and-type summary query
(`TransactionSummaryByCategory`); `COALESCE` makes the scanned label always
non-null. -/
structure TransactionSummaryByCategory where
  CategoryName : Option String
  Type_ : String
  TotalAmount : Int
deriving DecidableEq, Repr

/-- Summary response DTO (`usecaseEntity.TransactionSummaryResponse`). -/
structure TransactionSummaryResponse where
  CategoryName : Option String
  Type_ : String
  TotalAmount : Int
deriving DecidableEq, Repr

/-- Modelled from the spec: `helper.ConvertToJakartaTime` (not under `src/`)
renders a timestamp in the service's local time zone; the rendering is opaque
to every claim, so any injective rendering serves. -/
def convertToJakartaTime (t : Nat) : String := toString t

namespace CategoryRepository

/-- `WHERE created_by = ?` (`category.go` GetAll). -/
def GetAll (st : Store) (userID : Int) : List Category :=
  st.categories.filter (fun c => c.CreatedBy == userID)

/-- Primary-key lookup, no owner filter (`db.First(&result, ID)`). -/
def GetByID (st : Store) (ID : Int) : GoResult Category :=
  match st.categories.find? (fun c => c.ID == ID) with
  | some c => .ok c
  | none => .err .recordNotFound

/-- `WHERE created_by = ? AND name = ?`, used for duplicate-name checks. -/
def GetByUserIDAndName (st : Store) (userID : Int) (name : String) : GoResult Category :=
  match st.categories.find? (fun c => c.CreatedBy == userID && c.Name == name) with
  | some c => .ok c
  | none => .err .recordNotFound

/-- INSERT with auto-assigned surrogate key. The `helper.NonZeroCols` column
selection (helper not under `src/`; per the spec it inserts the supplied
non-default fields) does not change the stored row for the fully-populated
records the services build. -/
def Create (st : Store) (params : Category) : Store :=
  { st with
    categories := st.categories ++ [{ params with ID := st.nextCategoryID }],
    nextCategoryID := st.nextCategoryID + 1 }

/-- GORM `Updates` with a struct argument applies only the non-zero fields of
the changes struct (so the repository's own comment in `category.go`); the
primary key is never updated. -/
def gormMergeCategory (row chg : Category) : Category :=
  { row with
    CreatedBy := if chg.CreatedBy != 0 then chg.CreatedBy else row.CreatedBy,
    Name := if chg.Name != "" then chg.Name else row.Name,
    CreatedAt := if chg.CreatedAt != 0 then chg.CreatedAt else row.CreatedAt,
    UpdatedAt := if chg.UpdatedAt != 0 then chg.UpdatedAt else row.UpdatedAt }

/-- `Model(params).Updates(changes)`: rejects a missing primary key, then
updates the rows matching `params.ID` with the non-zero fields of `changes`.
The use case always supplies a non-nil `changes`, so the `StructToMap`
fallback branch is never reached and is not modelled. -/
def Update (st : Store) (params chg : Category) : GoResult Store :=
  if params.ID == 0 then .err .invalidRequest
  else .ok { st with
    categories := st.categories.map (fun c =>
      if c.ID == params.ID then gormMergeCategory c chg else c) }

/-- `WHERE id = ?` DELETE, unconditional (ownership pre-verified by caller). -/
def DeleteByID (st : Store) (id : Int) : Store :=
  { st with categories := st.categories.filter (fun c => !(c.ID == id)) }

end CategoryRepository

namespace TransactionRepository

/-- `WHERE id = ? AND user_id = ?` (ownership folded into the predicate). -/
def GetByIDAndUserID (st : Store) (ID userID : Int) : GoResult Transaction :=
  match st.transactions.find? (fun t => t.ID == ID && t.UserID == userID) with
  | some t => .ok t
  | none => .err .recordNotFound

/-- INSERT with auto-assigned surrogate key (see the note on
`CategoryRepository.Create` about `helper.NonZeroCols`). -/
def Create (st : Store) (params : Transaction) : Store :=
  { st with
    transactions := st.transactions ++ [{ params with ID := st.nextTransactionID }],
    nextTransactionID := st.nextTransactionID + 1 }

/-- GORM `Updates` with a struct argument applies only the non-zero fields:
a `sql.NullInt64`/`sql.NullString` with `Valid:false` (here `none`) and a
zero `time.Time` are zero values and are skipped. -/
def gormMergeTransaction (row chg : Transaction) : Transaction :=
  { row with
    CategoryID := if chg.CategoryID.isSome then chg.CategoryID else row.CategoryID,
    Amount := if chg.Amount != 0 then chg.Amount else row.Amount,
    Type_ := if chg.Type_ != "" then chg.Type_ else row.Type_,
    Description := if chg.Description.isSome then chg.Description else row.Description,
    TransactionDate := if !(isZeroDate chg.TransactionDate) then chg.TransactionDate
      else row.TransactionDate,
    CreatedAt := if chg.CreatedAt != 0 then chg.CreatedAt else row.CreatedAt,
    UpdatedAt := if chg.UpdatedAt != 0 then chg.UpdatedAt else row.UpdatedAt }

/-- `Model(params).Where("user_id = ?", params.UserID).Updates(changes)`:
rejects a missing id or user id, then updates the rows matching both with the
non-zero fields of `changes` (the `changes == nil` fallback is never used by
the service and is not modelled). -/
def Update (st : Store) (params chg : Transaction) : GoResult Store :=
  if params.ID == 0 || params.UserID == 0 then .err .invalidRequest
  else .ok { st with
    transactions := st.transactions.map (fun t =>
      if t.ID == params.ID && t.UserID == params.UserID then gormMergeTransaction t chg
      else t) }

/-- `WHERE id = ? AND user_id = ?` DELETE, rejecting a zero user id. -/
def DeleteByIDAndUserID (st : Store) (id userID : Int) : GoResult Store :=
  if userID == 0 then .err .invalidRequest
  else .ok { st with
    transactions := st.transactions.filter (fun t => !(t.ID == id && t.UserID == userID)) }

/-- `ORDER BY t.transaction_date DESC, t.id DESC` as a boolean total preorder. -/
def leDateDescIDDesc (a b : TransactionWithCategory) : Bool :=
  decide (dateKey b.txn.TransactionDate < dateKey a.txn.TransactionDate ∨
    (dateKey a.txn.TransactionDate = dateKey b.txn.TransactionDate ∧ b.txn.ID ≤ a.txn.ID))

/-- `SELECT t.*, c.name as category_name FROM transactions t LEFT JOIN
categories c ON t.category_id = c.id WHERE t.user_id = ? ORDER BY
t.transaction_date DESC, t.id DESC`. The join key is the categories primary
key, so each transaction yields exactly one row. -/
def GetAllByUserID (st : Store) (userID : Int) : List TransactionWithCategory :=
  let rows := st.transactions.filter (fun t => t.UserID == userID)
  let joined := rows.map (fun t =>
    { txn := t,
      CategoryName := t.CategoryID.bind (fun cid =>
        (st.categories.find? (fun c => c.ID == cid)).map (fun c => c.Name)) })
  joined.mergeSort leDateDescIDDesc

/-- `transaction_date BETWEEN ? AND ?` (inclusive on both ends). -/
def betweenDates (s e d : GoDate) : Bool :=
  decide (dateKey s ≤ dateKey d ∧ dateKey d ≤ dateKey e)

/-- `SUM(amount)` over a group. -/
def sumAmounts (l : List Transaction) : Int :=
  l.foldl (fun acc t => acc + t.Amount) 0

/-- Daily summary: `WHERE user_id = ? AND transaction_date BETWEEN ? AND ?
GROUP BY transaction_day, type ORDER BY transaction_day ASC, type ASC`,
summing `amount`. The date strings are only ever passed in validated, so the
non-parsing fallback (MySQL would match no rows) is immaterial. -/
def GetDailySummaryByUserID (st : Store) (userID : Int) (startDate endDate : String) :
    List DailySummaryRow :=
  match parseDate startDate, parseDate endDate with
  | some s, some e =>
    let rows := st.transactions.filter (fun t =>
      t.UserID == userID && betweenDates s e t.TransactionDate)
    let keys := (rows.map (fun t => (t.TransactionDate, t.Type_))).dedup
    let sorted := keys.mergeSort (fun a b =>
      decide (dateKey a.1 < dateKey b.1 ∨ (dateKey a.1 = dateKey b.1 ∧ a.2 ≤ b.2)))
    sorted.map (fun k =>
      { transactionDay := k.1, Type_ := k.2,
        totalAmount := sumAmounts (rows.filter (fun t =>
          t.TransactionDate == k.1 && t.Type_ == k.2)) })
  | _, _ => []

/-- Category-and-type summary: left join, `COALESCE(c.name, 'Uncategorized')`
label, `GROUP BY category_name, t.type` summing amount, ordered by label then
type, over `WHERE t.user_id = ? AND t.transaction_date BETWEEN ? AND ?`. -/
def GetSummaryByCategoryAndTypeByUserID (st : Store) (userID : Int)
    (startDate endDate : String) : List TransactionSummaryByCategory :=
  match parseDate startDate, parseDate endDate with
  | some s, some e =>
    let rows := st.transactions.filter (fun t =>
      t.UserID == userID && betweenDates s e t.TransactionDate)
    let label := fun (t : Transaction) =>
      match t.CategoryID.bind (fun cid =>
        (st.categories.find? (fun c => c.ID == cid)).map (fun c => c.Name)) with
      | some n => n
      | none => "Uncategorized"
    let keys := (rows.map (fun t => (label t, t.Type_))).dedup
    let sorted := keys.mergeSort (fun a b =>
      decide (a.1 < b.1 ∨ (a.1 = b.1 ∧ a.2 ≤ b.2)))
    sorted.map (fun k =>
      { CategoryName := some k.1, Type_ := k.2,
        TotalAmount := sumAmounts (rows.filter (fun t =>
          label t == k.1 && t.Type_ == k.2)) })
  | _, _ => []

end TransactionRepository

namespace CrudCategory

/-- `CrudCategory.Create`: reject a zero user id; conflict when a category of
the same name exists for this owner; otherwise persist with
`created_by = userID` and current timestamps. -/
def Create (st : Store) (now : Nat) (userID : Int) (req : CategoryReq) : GoResult Store :=
  if userID == 0 then .err .invalidRequest
  else
    match CategoryRepository.GetByUserIDAndName st userID req.Name with
    | .ok _ => .err .conflict
    | .err .recordNotFound =>
      .ok (CategoryRepository.Create st
        { ID := 0, CreatedBy := userID, Name := req.Name, CreatedAt := now, UpdatedAt := now })
    | .err e => .err e
    | .panicked => .panicked

/-- `CrudCategory.Update`: load by id (not owner-scoped), compare
`CreatedBy`, re-run the duplicate check only when the name changed (excluding
the record's own id), then persist `Name` and `UpdatedAt`. -/
def Update (st : Store) (now : Nat) (id userID : Int) (req : CategoryReq) : GoResult Store :=
  if userID == 0 then .err .invalidRequest
  else match CategoryRepository.GetByID st id with
  | .err e => .err e
  | .panicked => .panicked
  | .ok oldData =>
    if oldData.CreatedBy != userID then .err .unauthorized
    else
      let dupCheck : GoResult Unit :=
        if oldData.Name != req.Name then
          match CategoryRepository.GetByUserIDAndName st userID req.Name with
          | .ok existing => if existing.ID != id then .err .conflict else .ok ()
          | .err .recordNotFound => .ok ()
          | .err e => .err e
          | .panicked => .panicked
        else .ok ()
      match dupCheck with
      | .err e => .err e
      | .panicked => .panicked
      | .ok _ =>
        CategoryRepository.Update st oldData
          { ID := 0, CreatedBy := 0, Name := req.Name, CreatedAt := 0, UpdatedAt := now }

/-- `CrudCategory.Delete`: load by id, compare `CreatedBy`, then delete by
primary key. -/
def Delete (st : Store) (id userID : Int) : GoResult Store :=
  if userID == 0 then .err .invalidRequest
  else match CategoryRepository.GetByID st id with
  | .err e => .err e
  | .panicked => .panicked
  | .ok oldData =>
    if oldData.CreatedBy != userID then .err .unauthorized
    else .ok (CategoryRepository.DeleteByID st id)

end CrudCategory

namespace CrudTransaction

/-- Category-validation block shared verbatim by `Create`
(crud_usecase.go:64-82) and `Update` (crud_usecase.go:188-206): a supplied
positive category id must exist (else invalid-request, whatever the lookup
error) and belong to the requesting user (else unauthorized); an absent or
non-positive id resolves to a null `sql.NullInt64`. -/
def validateCategoryID (st : Store) (userID : Int) (reqCategoryID : Option Int) :
    GoResult (Option Int) :=
  match reqCategoryID with
  | some cid =>
    if cid > 0 then
      match CategoryRepository.GetByID st cid with
      | .err _ => .err .invalidRequest
      | .panicked => .panicked
      | .ok category =>
        if category.CreatedBy != userID then .err .unauthorized
        else .ok (some cid)
    else .ok none
  | none => .ok none

/-- `CrudTransaction.Create`: reject a zero user id; validate the category;
parse the date strictly; build the entity — where
`sql.NullString{String: *req.Description, Valid: req.Description != nil}`
dereferences the pointer unconditionally, so a nil description is a runtime
panic — and insert. -/
def Create (st : Store) (now : Nat) (userID : Int) (req : TransactionReq) : GoResult Store :=
  if userID == 0 then .err .invalidRequest
  else match validateCategoryID st userID req.CategoryID with
  | .err e => .err e
  | .panicked => .panicked
  | .ok categoryID =>
    match parseDate req.TransactionDate with
    | none => .err .invalidRequest
    | some parsed =>
      match req.Description with
      | none => .panicked
      | some desc =>
        .ok (TransactionRepository.Create st
          { ID := 0, UserID := userID, CategoryID := categoryID, Amount := req.Amount,
            Type_ := req.Type_, Description := some desc, TransactionDate := parsed,
            CreatedAt := now, UpdatedAt := now })

/-- Mapping of one join row to the response DTO (the loop body of
`CrudTransaction.GetAll`): nullable columns become optional fields and the
date is re-formatted as `YYYY-MM-DD`. -/
def toTransactionResponse (row : TransactionWithCategory) : TransactionResponse :=
  { ID := row.txn.ID, UserID := row.txn.UserID, CategoryID := row.txn.CategoryID,
    CategoryName := row.CategoryName, Amount := row.txn.Amount, Type_ := row.txn.Type_,
    Description := row.txn.Description,
    TransactionDate := formatDate row.txn.TransactionDate,
    CreatedAt := convertToJakartaTime row.txn.CreatedAt,
    UpdatedAt := convertToJakartaTime row.txn.UpdatedAt }

/-- `CrudTransaction.GetAll`: owner-scoped join rows mapped to the response
DTO. -/
def GetAll (st : Store) (userID : Int) : GoResult (List TransactionResponse) :=
  if userID == 0 then .err .invalidRequest
  else .ok ((TransactionRepository.GetAllByUserID st userID).map toTransactionResponse)

/-- `CrudTransaction.Update`: owner-scoped fetch (its error passes through
unchanged); category re-validation; a blank date keeps the old one, a
non-blank date is re-parsed; then the changes struct — whose description
field again dereferences a possibly-nil pointer — goes to the repository's
GORM update. -/
def Update (st : Store) (now : Nat) (id userID : Int) (req : TransactionReq) : GoResult Store :=
  if userID == 0 then .err .invalidRequest
  else match TransactionRepository.GetByIDAndUserID st id userID with
  | .err e => .err e
  | .panicked => .panicked
  | .ok oldData =>
    match validateCategoryID st userID req.CategoryID with
    | .err e => .err e
    | .panicked => .panicked
    | .ok newCategoryID =>
      match (if req.TransactionDate != "" then
               match parseDate req.TransactionDate with
               | none => GoResult.err AppErr.invalidRequest
               | some d => GoResult.ok d
             else GoResult.ok oldData.TransactionDate) with
      | .err e => .err e
      | .panicked => .panicked
      | .ok parsed =>
        match req.Description with
        | none => .panicked
        | some desc =>
          TransactionRepository.Update st oldData
            { ID := 0, UserID := 0, CategoryID := newCategoryID, Amount := req.Amount,
              Type_ := req.Type_, Description := some desc, TransactionDate := parsed,
              CreatedAt := 0, UpdatedAt := now }

/-- `CrudTransaction.Delete`: owner-scoped existence check (its error passes
through unchanged), then owner-scoped delete. -/
def Delete (st : Store) (id userID : Int) : GoResult Store :=
  if userID == 0 then .err .invalidRequest
  else match TransactionRepository.GetByIDAndUserID st id userID with
  | .err e => .err e
  | .panicked => .panicked
  | .ok _ => TransactionRepository.DeleteByIDAndUserID st id userID

/-- `CrudTransaction.GetDailySummary`: reject a zero user id, validate both
dates (start first), then delegate to the store unchanged. -/
def GetDailySummary (st : Store) (userID : Int) (startDate endDate : String) :
    GoResult (List DailySummaryRow) :=
  if userID == 0 then .err .invalidRequest
  else if (parseDate startDate).isNone then .err .invalidRequest
  else if (parseDate endDate).isNone then .err .invalidRequest
  else .ok (TransactionRepository.GetDailySummaryByUserID st userID startDate endDate)

/-- `CrudTransaction.GetSummaryByCategoryAndType`: reject a zero user id,
validate both dates, delegate, and map rows to the response DTO. -/
def GetSummaryByCategoryAndType (st : Store) (userID : Int) (startDate endDate : String) :
    GoResult (List TransactionSummaryResponse) :=
  if userID == 0 then .err .invalidRequest
  else if (parseDate startDate).isNone then .err .invalidRequest
  else if (parseDate endDate).isNone then .err .invalidRequest
  else .ok ((TransactionRepository.GetSummaryByCategoryAndTypeByUserID st userID
      startDate endDate).map (fun row =>
    { CategoryName := row.CategoryName, Type_ := row.Type_, TotalAmount := row.TotalAmount }))

end CrudTransaction

/-- Bounds carried by a successful ASCII digit test. -/
theorem isDigitChar_bounds {c : Char} (h : isDigitChar c = true) :
    48 ≤ c.toNat ∧ c.toNat ≤ 57 := by
  simpa [isDigitChar] using h

/-- Rebuilding an ASCII digit from its value recovers the character. -/
theorem natDigitChar_digitToNat {c : Char} (h : isDigitChar c = true) :
    natDigitChar (digitToNat c) = c := by
  obtain ⟨h1, h2⟩ := isDigitChar_bounds h
  have hx : 48 + (c.toNat - 48) = c.toNat := by omega
  rw [natDigitChar, digitToNat, hx, Char.ofNat_toNat]

/-- Formatting a successfully parsed date reproduces the original string:
`time.Parse("2006-01-02", ·)` admits exactly the zero-padded form that
`Format("2006-01-02")` emits. -/
theorem formatDate_parseDate {s : String} {d : GoDate} (h : parseDate s = some d) :
    formatDate d = s := by
  obtain ⟨cs⟩ := s
  unfold parseDate at h
  split at h
  case h_2 => exact absurd h (by simp)
  case h_1 y1 y2 y3 y4 s1 m1 m2 s2 d1 d2 heq =>
    rw [show (String.mk cs).data = cs from rfl] at heq
    subst heq
    split at h
    case isFalse => exact absurd h (by simp)
    case isTrue hdig =>
      dsimp only at h
      split at h
      case isFalse => exact absurd h (by simp)
      case isTrue hrange =>
        simp only [Option.some.injEq] at h
        subst h
        simp only [Bool.and_eq_true, beq_iff_eq] at hdig
        obtain ⟨⟨⟨⟨⟨⟨⟨⟨⟨hy1, hy2⟩, hy3⟩, hy4⟩, hs1⟩, hm1⟩, hm2⟩, hs2⟩, hd1⟩, hd2⟩ := hdig
        obtain ⟨a1, b1⟩ := isDigitChar_bounds hy1
        obtain ⟨a2, b2⟩ := isDigitChar_bounds hy2
        obtain ⟨a3, b3⟩ := isDigitChar_bounds hy3
        obtain ⟨a4, b4⟩ := isDigitChar_bounds hy4
        obtain ⟨a5, b5⟩ := isDigitChar_bounds hm1
        obtain ⟨a6, b6⟩ := isDigitChar_bounds hm2
        obtain ⟨a7, b7⟩ := isDigitChar_bounds hd1
        obtain ⟨a8, b8⟩ := isDigitChar_bounds hd2
        subst hs1; subst hs2
        have e1 : (((digitToNat y1 * 10 + digitToNat y2) * 10 + digitToNat y3) * 10 + digitToNat y4) / 1000 % 10 = digitToNat y1 := by
          unfold digitToNat; omega
        have e2 : (((digitToNat y1 * 10 + digitToNat y2) * 10 + digitToNat y3) * 10 + digitToNat y4) / 100 % 10 = digitToNat y2 := by
          unfold digitToNat; omega
        have e3 : (((digitToNat y1 * 10 + digitToNat y2) * 10 + digitToNat y3) * 10 + digitToNat y4) / 10 % 10 = digitToNat y3 := by
          unfold digitToNat; omega
        have e4 : (((digitToNat y1 * 10 + digitToNat y2) * 10 + digitToNat y3) * 10 + digitToNat y4) % 10 = digitToNat y4 := by
          unfold digitToNat; omega
        have e5 : (digitToNat m1 * 10 + digitToNat m2) / 10 % 10 = digitToNat m1 := by
          unfold digitToNat; omega
        have e6 : (digitToNat m1 * 10 + digitToNat m2) % 10 = digitToNat m2 := by
          unfold digitToNat; omega
        have e7 : (digitToNat d1 * 10 + digitToNat d2) / 10 % 10 = digitToNat d1 := by
          unfold digitToNat; omega
        have e8 : (digitToNat d1 * 10 + digitToNat d2) % 10 = digitToNat d2 := by
          unfold digitToNat; omega
        show String.mk _ = String.mk _
        congr 1
        simp only [e1, e2, e3, e4, e5, e6, e7, e8,
          natDigitChar_digitToNat hy1, natDigitChar_digitToNat hy2,
          natDigitChar_digitToNat hy3, natDigitChar_digitToNat hy4,
          natDigitChar_digitToNat hm1, natDigitChar_digitToNat hm2,
          natDigitChar_digitToNat hd1, natDigitChar_digitToNat hd2]

/-- C1: for every transaction id and distinct user ids A and B (A a real,
non-zero authenticated id), if every transaction bearing that id is owned by
B, then an update or delete attempted by A fails with the not-found error —
never unauthorized — because `GetByIDAndUserID` filters by both id and owner;
the error outcome carries no successor store, so the stored transaction is
unchanged. -/
theorem C1_cross_owner_update_delete_not_found
    (st : Store) (now : Nat) (id A B : Int) (req : TransactionReq)
    (hA : A ≠ 0) (hAB : A ≠ B)
    (hOwn : ∀ t ∈ st.transactions, t.ID = id → t.UserID = B) :
    CrudTransaction.Update st now id A req = .err .recordNotFound ∧
    CrudTransaction.Delete st id A = .err .recordNotFound := by
  have hfind : st.transactions.find? (fun t => t.ID == id && t.UserID == A) = none := by
    rw [List.find?_eq_none]
    intro t ht
    simp only [Bool.and_eq_true, beq_iff_eq, not_and]
    intro hid
    rw [hOwn t ht hid]
    exact fun h => hAB h.symm
  constructor
  · simp [CrudTransaction.Update, hA, TransactionRepository.GetByIDAndUserID, hfind]
  · simp [CrudTransaction.Delete, hA, TransactionRepository.GetByIDAndUserID, hfind]

/-- C1 witness: user 3 attacks the transaction of user 2. -/
theorem C1_witness :
    CrudTransaction.Update ⟨[], [⟨1, 2, none, 50, "expense", some "x", ⟨2024, 1, 15⟩, 1, 1⟩], 1, 2⟩
      7 1 3 ⟨none, 60, "income", some "y", "2024-02-01"⟩ = .err .recordNotFound ∧
    CrudTransaction.Delete ⟨[], [⟨1, 2, none, 50, "expense", some "x", ⟨2024, 1, 15⟩, 1, 1⟩], 1, 2⟩
      1 3 = .err .recordNotFound :=
  C1_cross_owner_update_delete_not_found _ 7 1 3 2 _ (by decide) (by decide) (by decide)

/-- C2: creating a second category with a name the owner already uses fails
with conflict (the error outcome leaves the stored categories unchanged),
while a different owner free of that name succeeds and the category is
appended with `created_by` set to that owner. -/
theorem C2_duplicate_name_per_owner
    (st : Store) (now : Nat) (owner other : Int) (name : String) (c : Category)
    (howner : owner ≠ 0) (hc : c ∈ st.categories)
    (hby : c.CreatedBy = owner) (hname : c.Name = name)
    (hother : other ≠ 0)
    (hfresh : ∀ x ∈ st.categories, x.CreatedBy = other → x.Name ≠ name) :
    CrudCategory.Create st now owner ⟨name⟩ = .err .conflict ∧
    CrudCategory.Create st now other ⟨name⟩ =
      .ok { st with
        categories := st.categories ++ [⟨st.nextCategoryID, other, name, now, now⟩],
        nextCategoryID := st.nextCategoryID + 1 } := by
  constructor
  · rcases hdup : st.categories.find? (fun x => x.CreatedBy == owner && x.Name == name) with _ | x
    · rw [List.find?_eq_none] at hdup
      exact absurd (by simp [hby, hname]) (hdup c hc)
    · simp [CrudCategory.Create, howner, CategoryRepository.GetByUserIDAndName, hdup]
  · have hnone : st.categories.find? (fun x => x.CreatedBy == other && x.Name == name) = none := by
      rw [List.find?_eq_none]
      intro x hx
      simp only [Bool.and_eq_true, beq_iff_eq, not_and]
      exact hfresh x hx
    simp [CrudCategory.Create, hother, CategoryRepository.GetByUserIDAndName, hnone,
      CategoryRepository.Create]

/-- C2 witness: owner 1 already has "Food"; owner 1 fails with conflict and
owner 2 succeeds with the same name. -/
theorem C2_witness :
    CrudCategory.Create ⟨[⟨1, 1, "Food", 5, 5⟩], [], 2, 1⟩ 9 1 ⟨"Food"⟩ = .err .conflict ∧
    CrudCategory.Create ⟨[⟨1, 1, "Food", 5, 5⟩], [], 2, 1⟩ 9 2 ⟨"Food"⟩ =
      .ok ⟨[⟨1, 1, "Food", 5, 5⟩, ⟨2, 2, "Food", 9, 9⟩], [], 3, 1⟩ := by
  have h := C2_duplicate_name_per_owner ⟨[⟨1, 1, "Food", 5, 5⟩], [], 2, 1⟩ 9 1 2 "Food"
    ⟨1, 1, "Food", 5, 5⟩ (by decide) (by decide) rfl rfl (by decide) (by decide)
  exact ⟨h.1, h.2⟩

/-- C3 counterexample: with category_id absent and every other field valid —
the description is nil, which the data model allows — the create does not
succeed: building the entity dereferences the nil description pointer and
panics, so nothing is stored. -/
theorem C3_counterexample :
    CrudTransaction.Create ⟨[], [], 1, 1⟩ 5 1 ⟨none, 10, "income", none, "2024-01-15"⟩ =
      .panicked := by decide

/-- C3 (amended): a supplied positive category id that matches no category
fails invalid-request; one owned by a different user fails unauthorized; an
absent or non-positive category id with the other fields valid and the
description present succeeds and stores a null category reference. -/
theorem C3_create_category_validation
    (st : Store) (now : Nat) (userID cid : Int) (req : TransactionReq)
    (c : Category) (d : GoDate) (ds : String) :
    (userID ≠ 0 → req.CategoryID = some cid → 0 < cid →
      (∀ x ∈ st.categories, x.ID ≠ cid) →
      CrudTransaction.Create st now userID req = .err .invalidRequest) ∧
    (userID ≠ 0 → req.CategoryID = some cid → 0 < cid →
      st.categories.find? (fun x => x.ID == cid) = some c → c.CreatedBy ≠ userID →
      CrudTransaction.Create st now userID req = .err .unauthorized) ∧
    (userID ≠ 0 → (req.CategoryID = none ∨ req.CategoryID = some cid ∧ cid ≤ 0) →
      parseDate req.TransactionDate = some d → req.Description = some ds →
      CrudTransaction.Create st now userID req =
        .ok { st with
          transactions := st.transactions ++
            [⟨st.nextTransactionID, userID, none, req.Amount, req.Type_, some ds, d, now, now⟩],
          nextTransactionID := st.nextTransactionID + 1 }) := by
  refine ⟨?_, ?_, ?_⟩
  · intro huid hcid hpos hnone
    have hfind : st.categories.find? (fun x => x.ID == cid) = none := by
      rw [List.find?_eq_none]
      intro x hx
      simpa using hnone x hx
    simp [CrudTransaction.Create, huid, CrudTransaction.validateCategoryID, hcid, hpos,
      CategoryRepository.GetByID, hfind]
  · intro huid hcid hpos hfind hnotmine
    simp [CrudTransaction.Create, huid, CrudTransaction.validateCategoryID, hcid, hpos,
      CategoryRepository.GetByID, hfind, hnotmine]
  · intro huid hcat hdate hdesc
    rcases hcat with hcat | ⟨hcat, hle⟩
    · simp [CrudTransaction.Create, huid, CrudTransaction.validateCategoryID, hcat, hdate,
        hdesc, TransactionRepository.Create]
    · simp [CrudTransaction.Create, huid, CrudTransaction.validateCategoryID, hcat, hdate,
        hdesc, TransactionRepository.Create, not_lt.2 hle]

/-- C3 witness: the three branches at concrete inputs. -/
theorem C3_witness :
    CrudTransaction.Create ⟨[], [], 1, 1⟩ 5 1 ⟨some 9, 10, "income", some "a", "2024-01-15"⟩ =
      .err .invalidRequest ∧
    CrudTransaction.Create ⟨[⟨9, 2, "Food", 1, 1⟩], [], 10, 1⟩ 5 1
      ⟨some 9, 10, "income", some "a", "2024-01-15"⟩ = .err .unauthorized ∧
    CrudTransaction.Create ⟨[], [], 1, 4⟩ 5 1 ⟨none, 10, "income", some "a", "2024-01-15"⟩ =
      .ok ⟨[], [⟨4, 1, none, 10, "income", some "a", ⟨2024, 1, 15⟩, 5, 5⟩], 1, 5⟩ := by
  refine ⟨?_, ?_, ?_⟩
  · exact (C3_create_category_validation ⟨[], [], 1, 1⟩ 5 1 9
      ⟨some 9, 10, "income", some "a", "2024-01-15"⟩ ⟨9, 2, "Food", 1, 1⟩ ⟨2024, 1, 15⟩ "a").1
      (by decide) rfl (by decide) (by decide)
  · exact (C3_create_category_validation ⟨[⟨9, 2, "Food", 1, 1⟩], [], 10, 1⟩ 5 1 9
      ⟨some 9, 10, "income", some "a", "2024-01-15"⟩ ⟨9, 2, "Food", 1, 1⟩ ⟨2024, 1, 15⟩ "a").2.1
      (by decide) rfl (by decide) (by decide) (by decide)
  · have h := (C3_create_category_validation ⟨[], [], 1, 4⟩ 5 1 9
      ⟨none, 10, "income", some "a", "2024-01-15"⟩ ⟨9, 2, "Food", 1, 1⟩ ⟨2024, 1, 15⟩ "a").2.2
      (by decide) (Or.inl rfl) (by decide) rfl
    simpa using h

/-- C4: evaluating the update at the failing input. The request omits
`category_id`, so per the claim the stored category reference should become
null; but GORM `Updates` with a struct skips zero-valued fields, the null
`sql.NullInt64` among them, and the stored transaction keeps category 5.
Amount, type, date, description and `updated_at` are applied; everything
else is untouched. -/
theorem C4_absent_category_not_cleared :
    CrudTransaction.Update
      ⟨[⟨5, 1, "Food", 1, 1⟩], [⟨1, 1, some 5, 100, "expense", some "old", ⟨2024, 1, 1⟩, 1, 1⟩], 6, 2⟩
      9 1 1 ⟨none, 20, "income", some "d", "2024-01-02"⟩ =
    .ok ⟨[⟨5, 1, "Food", 1, 1⟩], [⟨1, 1, some 5, 20, "income", some "d", ⟨2024, 1, 2⟩, 1, 9⟩], 6, 2⟩ := by
  decide

/-- C5 counterexample: a create with amount −5 and every other field valid
is not rejected by the service or the store: it succeeds and the record with
the non-positive amount reaches storage. -/
theorem C5_counterexample :
    CrudTransaction.Create ⟨[], [], 1, 1⟩ 3 1 ⟨none, -5, "expense", some "x", "2024-01-15"⟩ =
      .ok ⟨[], [⟨1, 1, none, -5, "expense", some "x", ⟨2024, 1, 15⟩, 3, 3⟩], 1, 2⟩ := by
  decide

/-- C5 (amended): the core performs no amount validation at all — a create
whose other fields are valid succeeds for any amount, non-positive included,
and stores the request's amount verbatim; rejection of `amount ≤ 0` exists
only as a `validate:"gt=0"` tag enforced by the external request decoder. -/
theorem C5_core_accepts_nonpositive_amount
    (st : Store) (now : Nat) (userID : Int) (req : TransactionReq)
    (cido : Option Int) (d : GoDate) (ds : String)
    (huid : userID ≠ 0)
    (hcat : CrudTransaction.validateCategoryID st userID req.CategoryID = .ok cido)
    (hdate : parseDate req.TransactionDate = some d)
    (hdesc : req.Description = some ds)
    (_hamt : req.Amount ≤ 0) :
    CrudTransaction.Create st now userID req =
      .ok { st with
        transactions := st.transactions ++
          [⟨st.nextTransactionID, userID, cido, req.Amount, req.Type_, some ds, d, now, now⟩],
        nextTransactionID := st.nextTransactionID + 1 } := by
  simp [CrudTransaction.Create, huid, hcat, hdate, hdesc, TransactionRepository.Create]

/-- C5 witness: amount −7 with a resolved category is stored unchanged. -/
theorem C5_witness :
    CrudTransaction.Create ⟨[⟨2, 1, "Food", 1, 1⟩], [], 3, 1⟩ 4 1
      ⟨some 2, -7, "expense", some "x", "2024-01-15"⟩ =
      .ok ⟨[⟨2, 1, "Food", 1, 1⟩], [⟨1, 1, some 2, -7, "expense", some "x", ⟨2024, 1, 15⟩, 4, 4⟩], 3, 2⟩ := by
  have h := C5_core_accepts_nonpositive_amount ⟨[⟨2, 1, "Food", 1, 1⟩], [], 3, 1⟩ 4 1
    ⟨some 2, -7, "expense", some "x", "2024-01-15"⟩ (some 2) ⟨2024, 1, 15⟩ "x"
    (by decide) (by decide) (by decide) rfl (by decide)
  simpa using h

/-- C8: at a create and at an update whose request carries a nil description,
the operation does not complete: the entity literal
`sql.NullString{String: *req.Description, Valid: req.Description != nil}`
evaluates `*req.Description` unconditionally and panics on the nil pointer,
despite its own comment "Handle nil pointer for description". -/
theorem C8_nil_description_panics :
    CrudTransaction.Create ⟨[], [], 1, 1⟩ 2 1 ⟨none, 7, "income", none, "2024-03-05"⟩ =
      .panicked ∧
    CrudTransaction.Update ⟨[], [⟨3, 4, none, 7, "income", some "z", ⟨2024, 3, 5⟩, 1, 1⟩], 1, 4⟩
      2 3 4 ⟨none, 8, "expense", none, ""⟩ = .panicked := by
  exact ⟨by decide, by decide⟩

/-- C6: a date string rejected by `time.Parse("2006-01-02", ·)` makes create
fail invalid-request, makes update fail invalid-request when the string is
non-blank, and makes both summary operations fail invalid-request when it is
either bound of the range; the store argument is universally quantified and
the error outcome carries no successor store, so no store mutation or summary
query happens (the preceding owner-scoped fetch and category lookup of
create/update are read-only). -/
theorem C6_malformed_date_invalid_request
    (st : Store) (now : Nat) (id userID : Int) (req : TransactionReq)
    (oldt : Transaction) (cido : Option Int) (sd ed : String) :
    (userID ≠ 0 → CrudTransaction.validateCategoryID st userID req.CategoryID = .ok cido →
      parseDate req.TransactionDate = none →
      CrudTransaction.Create st now userID req = .err .invalidRequest) ∧
    (userID ≠ 0 → TransactionRepository.GetByIDAndUserID st id userID = .ok oldt →
      CrudTransaction.validateCategoryID st userID req.CategoryID = .ok cido →
      req.TransactionDate ≠ "" → parseDate req.TransactionDate = none →
      CrudTransaction.Update st now id userID req = .err .invalidRequest) ∧
    (userID ≠ 0 → (parseDate sd = none ∨ parseDate ed = none) →
      CrudTransaction.GetDailySummary st userID sd ed = .err .invalidRequest) ∧
    (userID ≠ 0 → (parseDate sd = none ∨ parseDate ed = none) →
      CrudTransaction.GetSummaryByCategoryAndType st userID sd ed = .err .invalidRequest) := by
  refine ⟨?_, ?_, ?_, ?_⟩
  · intro huid hcat hdate
    simp [CrudTransaction.Create, huid, hcat, hdate]
  · intro huid hfetch hcat hne hdate
    simp [CrudTransaction.Update, huid, hfetch, hcat, hne, hdate]
  · intro huid hbad
    rcases hbad with hbad | hbad
    · simp [CrudTransaction.GetDailySummary, huid, hbad]
    · rcases hsd : parseDate sd with _ | s
      · simp [CrudTransaction.GetDailySummary, huid, hsd]
      · simp [CrudTransaction.GetDailySummary, huid, hsd, hbad]
  · intro huid hbad
    rcases hbad with hbad | hbad
    · simp [CrudTransaction.GetSummaryByCategoryAndType, huid, hbad]
    · rcases hsd : parseDate sd with _ | s
      · simp [CrudTransaction.GetSummaryByCategoryAndType, huid, hsd]
      · simp [CrudTransaction.GetSummaryByCategoryAndType, huid, hsd, hbad]

/-- C6 witness: the malformed date "2024-1-15" (unpadded month) at all four
operations. -/
theorem C6_witness :
    CrudTransaction.Create ⟨[], [⟨1, 2, none, 5, "income", some "w", ⟨2024, 1, 1⟩, 1, 1⟩], 1, 2⟩
      6 2 ⟨none, 5, "income", some "w", "2024-1-15"⟩ = .err .invalidRequest ∧
    CrudTransaction.Update ⟨[], [⟨1, 2, none, 5, "income", some "w", ⟨2024, 1, 1⟩, 1, 1⟩], 1, 2⟩
      6 1 2 ⟨none, 5, "income", some "w", "2024-1-15"⟩ = .err .invalidRequest ∧
    CrudTransaction.GetDailySummary ⟨[], [⟨1, 2, none, 5, "income", some "w", ⟨2024, 1, 1⟩, 1, 1⟩], 1, 2⟩
      2 "2024-01-01" "2024-1-15" = .err .invalidRequest ∧
    CrudTransaction.GetSummaryByCategoryAndType
      ⟨[], [⟨1, 2, none, 5, "income", some "w", ⟨2024, 1, 1⟩, 1, 1⟩], 1, 2⟩
      2 "2024-1-15" "2024-01-31" = .err .invalidRequest := by
  have h := C6_malformed_date_invalid_request
    ⟨[], [⟨1, 2, none, 5, "income", some "w", ⟨2024, 1, 1⟩, 1, 1⟩], 1, 2⟩ 6 1 2
    ⟨none, 5, "income", some "w", "2024-1-15"⟩
    ⟨1, 2, none, 5, "income", some "w", ⟨2024, 1, 1⟩, 1, 1⟩ none "2024-01-01" "2024-1-15"
  have h2 := C6_malformed_date_invalid_request
    ⟨[], [⟨1, 2, none, 5, "income", some "w", ⟨2024, 1, 1⟩, 1, 1⟩], 1, 2⟩ 6 1 2
    ⟨none, 5, "income", some "w", "2024-1-15"⟩
    ⟨1, 2, none, 5, "income", some "w", ⟨2024, 1, 1⟩, 1, 1⟩ none "2024-1-15" "2024-01-31"
  exact ⟨h.1 (by decide) (by decide) (by decide),
    h.2.1 (by decide) (by decide) (by decide) (by decide) (by decide),
    h.2.2.1 (by decide) (Or.inr (by decide)),
    h2.2.2.2 (by decide) (Or.inl (by decide))⟩

/-- C7: category update and delete fail not-found when no category bears the
id, fail unauthorized when the category's `created_by` differs from the
requesting owner (the error outcome leaves the category unchanged); when the
name did not change the update succeeds without any duplicate check; when the
name changed, a same-owner holder of the new name is tolerated only if it is
the record itself, and the successful update rewrites exactly the name and
`updated_at` of the target row. -/
theorem C7_category_update_delete_guards
    (st : Store) (now : Nat) (id userID : Int) (req : CategoryReq) (c : Category)
    (huid : userID ≠ 0) :
    ((∀ x ∈ st.categories, x.ID ≠ id) →
      CrudCategory.Update st now id userID req = .err .recordNotFound ∧
      CrudCategory.Delete st id userID = .err .recordNotFound) ∧
    (st.categories.find? (fun x => x.ID == id) = some c → c.CreatedBy ≠ userID →
      CrudCategory.Update st now id userID req = .err .unauthorized ∧
      CrudCategory.Delete st id userID = .err .unauthorized) ∧
    (st.categories.find? (fun x => x.ID == id) = some c → c.CreatedBy = userID →
      c.Name = req.Name → id ≠ 0 →
      CrudCategory.Update st now id userID req =
        .ok { st with categories := st.categories.map (fun x =>
          if x.ID == id then CategoryRepository.gormMergeCategory x ⟨0, 0, req.Name, 0, now⟩
          else x) }) ∧
    (st.categories.find? (fun x => x.ID == id) = some c → c.CreatedBy = userID →
      c.Name ≠ req.Name →
      (∀ x ∈ st.categories, x.CreatedBy = userID → x.Name = req.Name → x.ID = id) →
      id ≠ 0 → req.Name ≠ "" → now ≠ 0 →
      CrudCategory.Update st now id userID req =
        .ok { st with categories := st.categories.map (fun x =>
          if x.ID == id then { x with Name := req.Name, UpdatedAt := now } else x) }) := by
  refine ⟨?_, ?_, ?_, ?_⟩
  · intro hnone
    have hfind : st.categories.find? (fun x => x.ID == id) = none := by
      rw [List.find?_eq_none]
      intro x hx
      simpa using hnone x hx
    constructor
    · simp [CrudCategory.Update, huid, CategoryRepository.GetByID, hfind]
    · simp [CrudCategory.Delete, huid, CategoryRepository.GetByID, hfind]
  · intro hfind hnm
    constructor
    · simp [CrudCategory.Update, huid, CategoryRepository.GetByID, hfind, hnm]
    · simp [CrudCategory.Delete, huid, CategoryRepository.GetByID, hfind, hnm]
  · intro hfind hmine hsame hid
    have hcid : c.ID = id := by simpa using List.find?_some hfind
    simp [CrudCategory.Update, huid, CategoryRepository.GetByID, hfind, hmine, hsame,
      CategoryRepository.Update, hcid, hid]
  · intro hfind hmine hdiff hdup hid hnm hnow
    have hcid : c.ID = id := by simpa using List.find?_some hfind
    rcases hex : st.categories.find? (fun x => x.CreatedBy == userID && x.Name == req.Name)
      with _ | x0
    · simp [CrudCategory.Update, huid, CategoryRepository.GetByID, hfind, hmine, hdiff,
        CategoryRepository.GetByUserIDAndName, hex, CategoryRepository.Update, hcid, hid]
      intro a _
      by_cases hx : a.ID = id
      · simp [hx, CategoryRepository.gormMergeCategory, hnm, hnow]
      · simp [hx]
    · have hx0 : x0.ID = id := by
        have hp := List.find?_some hex
        simp only [Bool.and_eq_true, beq_iff_eq] at hp
        exact hdup x0 (List.mem_of_find?_eq_some hex) hp.1 hp.2
      simp [CrudCategory.Update, huid, CategoryRepository.GetByID, hfind, hmine, hdiff,
        CategoryRepository.GetByUserIDAndName, hex, hx0, CategoryRepository.Update, hcid, hid]
      intro a _
      by_cases hx : a.ID = id
      · simp [hx, CategoryRepository.gormMergeCategory, hnm, hnow]
      · simp [hx]

/-- C7 witness: the four branches at concrete inputs (owner 2, intruder 3). -/
theorem C7_witness :
    CrudCategory.Update ⟨[], [], 1, 1⟩ 9 5 2 ⟨"Bills"⟩ = .err .recordNotFound ∧
    CrudCategory.Update ⟨[⟨5, 2, "Food", 1, 1⟩], [], 6, 1⟩ 9 5 3 ⟨"Bills"⟩ = .err .unauthorized ∧
    CrudCategory.Update ⟨[⟨5, 2, "Food", 1, 1⟩, ⟨6, 2, "Food", 1, 1⟩], [], 7, 1⟩ 9 5 2 ⟨"Food"⟩ =
      .ok ⟨[⟨5, 2, "Food", 1, 9⟩, ⟨6, 2, "Food", 1, 1⟩], [], 7, 1⟩ ∧
    CrudCategory.Update ⟨[⟨5, 2, "Food", 1, 1⟩], [], 6, 1⟩ 9 5 2 ⟨"Bills"⟩ =
      .ok ⟨[⟨5, 2, "Bills", 1, 9⟩], [], 6, 1⟩ := by
  refine ⟨?_, ?_, ?_, ?_⟩
  · exact ((C7_category_update_delete_guards ⟨[], [], 1, 1⟩ 9 5 2 ⟨"Bills"⟩
      ⟨5, 2, "Food", 1, 1⟩ (by decide)).1 (by decide)).1
  · exact ((C7_category_update_delete_guards ⟨[⟨5, 2, "Food", 1, 1⟩], [], 6, 1⟩ 9 5 3 ⟨"Bills"⟩
      ⟨5, 2, "Food", 1, 1⟩ (by decide)).2.1 (by decide) (by decide)).1
  · have h := (C7_category_update_delete_guards
      ⟨[⟨5, 2, "Food", 1, 1⟩, ⟨6, 2, "Food", 1, 1⟩], [], 7, 1⟩ 9 5 2 ⟨"Food"⟩
      ⟨5, 2, "Food", 1, 1⟩ (by decide)).2.2.1 (by decide) (by decide) rfl (by decide)
    simpa [CategoryRepository.gormMergeCategory] using h
  · have h := (C7_category_update_delete_guards ⟨[⟨5, 2, "Food", 1, 1⟩], [], 6, 1⟩ 9 5 2 ⟨"Bills"⟩
      ⟨5, 2, "Food", 1, 1⟩ (by decide)).2.2.2 (by decide) (by decide) (by decide) (by decide)
      (by decide) (by decide) (by decide)
    simpa using h

/-- C10: when both range bounds parse but the start date lies strictly after
the end date, both summary operations succeed with the empty collection for
every store: `BETWEEN` matches no row and no start-before-end validation
exists anywhere in the core. -/
theorem C10_inverted_range_yields_empty
    (st : Store) (userID : Int) (sd ed : String) (s e : GoDate)
    (huid : userID ≠ 0)
    (hs : parseDate sd = some s) (he : parseDate ed = some e)
    (hlt : dateKey e < dateKey s) :
    CrudTransaction.GetDailySummary st userID sd ed = .ok [] ∧
    CrudTransaction.GetSummaryByCategoryAndType st userID sd ed = .ok [] := by
  have hb : ∀ dd : GoDate, TransactionRepository.betweenDates s e dd = false := by
    intro dd
    simp only [TransactionRepository.betweenDates, decide_eq_false_iff_not, not_and, not_le]
    intro h1
    omega
  constructor
  · simp [CrudTransaction.GetDailySummary, huid, hs, he,
      TransactionRepository.GetDailySummaryByUserID, hb]
  · simp [CrudTransaction.GetSummaryByCategoryAndType, huid, hs, he,
      TransactionRepository.GetSummaryByCategoryAndTypeByUserID, hb]

/-- C10 witness: an inverted range over a store that does hold a transaction. -/
theorem C10_witness :
    CrudTransaction.GetDailySummary
      ⟨[], [⟨1, 1, none, 75, "expense", some "x", ⟨2024, 1, 15⟩, 1, 1⟩], 1, 2⟩
      1 "2024-02-01" "2024-01-01" = .ok [] ∧
    CrudTransaction.GetSummaryByCategoryAndType
      ⟨[], [⟨1, 1, none, 75, "expense", some "x", ⟨2024, 1, 15⟩, 1, 1⟩], 1, 2⟩
      1 "2024-02-01" "2024-01-01" = .ok [] :=
  C10_inverted_range_yields_empty _ 1 "2024-02-01" "2024-01-01" ⟨2024, 2, 1⟩ ⟨2024, 1, 1⟩
    (by decide) (by decide) (by decide) (by decide)

/-- Inversion of the category-validation block: a resolved non-null category
id means the category was found by the lookup and belongs to the requester. -/
theorem validateCategoryID_ok_some {st : Store} {userID : Int} {co : Option Int} {cid : Int}
    (h : CrudTransaction.validateCategoryID st userID co = .ok (some cid)) :
    ∃ c, st.categories.find? (fun x => x.ID == cid) = some c ∧ c.CreatedBy = userID := by
  rcases co with _ | c0
  · simp [CrudTransaction.validateCategoryID] at h
  · simp only [CrudTransaction.validateCategoryID] at h
    by_cases hpos : c0 > 0
    · rw [if_pos hpos] at h
      rcases hfind : st.categories.find? (fun x => x.ID == c0) with _ | c
      · unfold CategoryRepository.GetByID at h
        rw [hfind] at h
        exact absurd h (by simp)
      · unfold CategoryRepository.GetByID at h
        rw [hfind] at h
        dsimp only at h
        by_cases hmine : (c.CreatedBy != userID) = true
        · rw [if_pos hmine] at h
          exact absurd h (by simp)
        · rw [if_neg hmine] at h
          simp only [GoResult.ok.injEq, Option.some.injEq] at h
          subst h
          simp only [bne_iff_ne, ne_eq, not_not] at hmine
          exact ⟨c, hfind, hmine⟩
    · rw [if_neg hpos] at h
      exact absurd h (by simp)

/-- C9 counterexample: a structurally valid create request whose optional
description is nil never reaches the listing: the create itself panics on the
nil-pointer dereference, so the round trip fails for such requests. -/
theorem C9_counterexample :
    CrudTransaction.Create ⟨[], [], 1, 1⟩ 4 2 ⟨none, 50, "expense", none, "2024-01-15"⟩ =
      .panicked := by decide

/-- C9 (amended): for every valid create request whose description is
present, creating and then listing the owner's transactions yields a row
reproducing the request's amount, type, transaction date (re-formatted as
`YYYY-MM-DD`, hence equal to the request's string), and description, with the
category name joined from the referenced category when one was set and null
when none was set. -/
theorem C9_create_then_list_roundtrip
    (st : Store) (now : Nat) (userID : Int) (req : TransactionReq)
    (cido : Option Int) (d : GoDate) (ds : String)
    (huid : userID ≠ 0)
    (hcat : CrudTransaction.validateCategoryID st userID req.CategoryID = .ok cido)
    (hdate : parseDate req.TransactionDate = some d)
    (hdesc : req.Description = some ds) :
    ∃ st' rows, CrudTransaction.Create st now userID req = .ok st' ∧
      CrudTransaction.GetAll st' userID = .ok rows ∧
      ∃ resp ∈ rows,
        resp.Amount = req.Amount ∧
        resp.Type_ = req.Type_ ∧
        resp.TransactionDate = req.TransactionDate ∧
        resp.Description = req.Description ∧
        (cido = none → resp.CategoryName = none) ∧
        (∀ cid, cido = some cid →
          ∃ c, st.categories.find? (fun x => x.ID == cid) = some c ∧
            c.CreatedBy = userID ∧ resp.CategoryName = some c.Name) := by
  set newTx : Transaction :=
    ⟨st.nextTransactionID, userID, cido, req.Amount, req.Type_, some ds, d, now, now⟩ with hnew
  set st' : Store := Store.mk st.categories (st.transactions ++ [newTx])
    st.nextCategoryID (st.nextTransactionID + 1) with hst
  have hcreate : CrudTransaction.Create st now userID req = .ok st' := by
    simp [CrudTransaction.Create, huid, hcat, hdate, hdesc, TransactionRepository.Create, hst,
      hnew]
  set joinName : Option String := cido.bind (fun cid =>
    (st.categories.find? (fun c => c.ID == cid)).map (fun c => c.Name)) with hjn
  set jrow : TransactionWithCategory := ⟨newTx, joinName⟩ with hjr
  set resp : TransactionResponse := CrudTransaction.toTransactionResponse jrow with hresp
  have hjmem : jrow ∈ TransactionRepository.GetAllByUserID st' userID := by
    rw [TransactionRepository.GetAllByUserID]
    rw [List.mem_mergeSort]
    apply List.mem_map_of_mem
    rw [List.mem_filter]
    refine ⟨List.mem_append_right _ (List.mem_singleton.mpr rfl), by simp [hnew]⟩
  refine ⟨st', (TransactionRepository.GetAllByUserID st' userID).map
    CrudTransaction.toTransactionResponse, hcreate, ?_, ?_⟩
  · simp [CrudTransaction.GetAll, huid]
  refine ⟨resp, List.mem_map_of_mem _ hjmem, ?_, ?_, ?_, ?_, ?_, ?_⟩
  · rfl
  · rfl
  · simpa [hresp, CrudTransaction.toTransactionResponse, hjr, hnew]
      using formatDate_parseDate hdate
  · simp [hresp, CrudTransaction.toTransactionResponse, hjr, hnew, hdesc]
  · intro hnone
    simp [hresp, CrudTransaction.toTransactionResponse, hjr, hjn, hnone]
  · intro cid hcid
    rw [hcid] at hcat
    obtain ⟨c, hfind, hmine⟩ := validateCategoryID_ok_some hcat
    refine ⟨c, hfind, hmine, ?_⟩
    simp [hresp, CrudTransaction.toTransactionResponse, hjr, hjn, hcid, hfind]

/-- C9 witness: owner 1 creates a 50 expense on 2024-01-15 referencing their
category "Food"; the listing reproduces amount, type, date, description and
the joined category name. -/
theorem C9_witness :
    ∃ st' rows,
      CrudTransaction.Create ⟨[⟨2, 1, "Food", 1, 1⟩], [], 3, 1⟩ 4 1
        ⟨some 2, 50, "expense", some "w", "2024-01-15"⟩ = .ok st' ∧
      CrudTransaction.GetAll st' 1 = .ok rows ∧
      ∃ resp ∈ rows,
        resp.Amount = 50 ∧ resp.Type_ = "expense" ∧
        resp.TransactionDate = "2024-01-15" ∧ resp.Description = some "w" ∧
        (some (2 : Int) = none → resp.CategoryName = none) ∧
        (∀ cid, some (2 : Int) = some cid →
          ∃ c, List.find? (fun x => x.ID == cid) [(⟨2, 1, "Food", 1, 1⟩ : Category)] = some c ∧
            c.CreatedBy = 1 ∧ resp.CategoryName = some c.Name) :=
  C9_create_then_list_roundtrip ⟨[⟨2, 1, "Food", 1, 1⟩], [], 3, 1⟩ 4 1
    ⟨some 2, 50, "expense", some "w", "2024-01-15"⟩ (some 2) ⟨2024, 1, 15⟩ "w"
    (by decide) (by decide) (by decide) rfl
